import Mathlib

/-!
Shallow embedding of the agent orchestration core of `src/server/agent.ts`
(the MetroDN_Botchat backend): the retry/backoff policy, the inventory
search tool, the state-machine transition function and the bounded graph
loop, together with theorems checking the specification's claims.
-/

set_option linter.unusedVariables false

/-- Model of a JavaScript error value as observed by the code under
analysis: an optional numeric `status` field (HTTP status, absent on plain
errors) and a `message` string. -/
structure JsError where
  status : Option Int
  message : String
deriving DecidableEq, Repr

/-- The error thrown by the `throw new Error("Max retries exceeded")` line
at the end of `retryWithBackoff` (agent.ts:34); a plain error with no
`status` field. -/
def maxRetriesExceeded : JsError :=
  { status := none, message := "Max retries exceeded" }

/-- Result of one invocation of a fallible async operation: a returned
value or a thrown error. -/
inductive Outcome (T : Type) where
  | ok (v : T)
  | err (e : JsError)
deriving DecidableEq, Repr

/-- Observable trace of a `retryWithBackoff` call: the final outcome (the
returned value, or the error the promise rejects with), the list of sleep
delays in milliseconds performed between attempts, and the number of times
the wrapped operation was invoked. -/
structure RetryTrace (T : Type) where
  result : Outcome T
  delays : List Nat
  calls : Nat
deriving DecidableEq, Repr

/-- Prepend a backoff sleep of `d` milliseconds and one more invocation of
the wrapped operation in front of a retry trace. -/
def consDelay (d : Nat) (t : RetryTrace T) : RetryTrace T :=
  { result := t.result, delays := d :: t.delays, calls := t.calls + 1 }

/-- Loop body of `retryWithBackoff` (agent.ts:21-33).  The wrapped
operation is modelled as a function `fn` from the (1-based) attempt number
to that attempt's outcome.  `attempt` is the current value of the loop
variable and `fuel` the number of loop iterations still available, i.e.
`maxRetries - attempt + 1`; the source's retry guard `attempt < maxRetries`
is exactly `1 ≤ fuel` after the current iteration's unit is consumed.  When
the fuel runs out with the loop not yet exited, the source reaches
`throw new Error("Max retries exceeded")` (agent.ts:34). -/
def retryGo (fn : Nat → Outcome T) (attempt : Nat) : Nat → RetryTrace T
  | 0 => { result := Outcome.err maxRetriesExceeded, delays := [], calls := 0 }
  | fuel + 1 =>
    match fn attempt with
    | Outcome.ok v => { result := Outcome.ok v, delays := [], calls := 1 }
    | Outcome.err e =>
      if e.status = some 429 ∧ 1 ≤ fuel then
        consDelay (min (1000 * 2 ^ attempt) 30000) (retryGo fn (attempt + 1) fuel)
      else { result := Outcome.err e, delays := [], calls := 1 }

/-- `retryWithBackoff(fn, maxRetries)` (agent.ts:20-35).  The loop runs
`attempt` from 1 while `attempt <= maxRetries`; a JavaScript number for
`maxRetries` is modelled as an integer, so a non-positive bound means the
loop body never runs. -/
def retryWithBackoff (fn : Nat → Outcome T) (maxRetries : Int) : RetryTrace T :=
  retryGo fn 1 maxRetries.toNat

/-- The source's default for `maxRetries` (agent.ts:20). -/
def defaultMaxRetries : Int := 3

/-- Argument payload for the `item_lookup` tool as received from the
model, before zod validation: each declared field is present or missing. -/
structure RawInput where
  query : Option String
  n : Option Int
deriving DecidableEq, Repr

/-- A validated SearchQuery, i.e. the parsed form of the zod schema
`z.object(...)` of agent.ts:113-116.  JavaScript numbers are modelled as
integers; every divergence established below already shows on integer
inputs. -/
structure SearchQuery where
  query : String
  n : Int
deriving DecidableEq, Repr

/-- Validation by the tool's declared zod schema (agent.ts:113-116):
`query` is a required string, `n` is optional with default 10 and carries
no further constraint. -/
def schemaParse (raw : RawInput) : Outcome SearchQuery :=
  match raw.query with
  | none => Outcome.err { status := none, message := "Required" }
  | some q =>
    match raw.n with
    | none => Outcome.ok { query := q, n := 10 }
    | some m => Outcome.ok { query := q, n := m }

/-- A tool call requested by the model: identifier, tool name and
arguments. -/
structure ToolCall where
  id : String
  name : String
  args : RawInput
deriving DecidableEq, Repr

/-- A LangChain message.  Only ai-role messages carry a `tool_calls` list;
on human and tool messages the field is absent, which the truthiness test
in `shouldContinue` treats like an empty list. -/
inductive Message where
  | human (content : String)
  | ai (content : String) (tool_calls : List ToolCall)
  | tool (content : String) (tool_call_id : String)
deriving DecidableEq, Repr

/-- The `tool_calls` field as read by `lastMessage.tool_calls?.length`
(agent.ts:134): the list carried by an ai message, and the absent field
(undefined, falsy exactly like an empty list) otherwise. -/
def toolCallsOf : Message → List ToolCall
  | Message.ai _ tcs => tcs
  | _ => []

/-- Role test: is this an ai message. -/
def isAi : Message → Bool
  | Message.ai _ _ => true
  | _ => false

/-- `shouldContinue` (agent.ts:131-138): look at the last message of the
state and return "tools" when its `tool_calls` list has truthy (non-zero)
length, "__end__" otherwise.  On an empty message list the source would
fault reading a field of `undefined`; this is modelled as `none` and never
arises after an agent step, which always appends the model's reply. -/
def shouldContinue (messages : List Message) : Option String :=
  match messages.getLast? with
  | none => none
  | some m => if (toolCallsOf m).length ≠ 0 then some "tools" else some "__end__"

/-- The unconditional edges of the workflow graph (agent.ts:173 and 175):
`__start__ → agent` and `tools → agent`. -/
def workflowEdges : List (String × String) :=
  [("__start__", "agent"), ("tools", "agent")]

/-- Follow the unconditional edge out of a node, if any. -/
def nextFixedEdge (s : String) : Option String :=
  workflowEdges.lookup s

/-- Node currently scheduled for execution in the compiled workflow. -/
inductive Node where
  | agent
  | tools
deriving DecidableEq, Repr

/-- Fatal graph-level failure: the recursion (step) limit was exceeded. -/
inductive GraphError where
  | recursionLimit
deriving DecidableEq, Repr

/-- Tool-node output: each requested tool call becomes a tool message with
the executor's serialized content and the matching call id, in order. -/
def toolMessages (texec : ToolCall → String) (tcs : List ToolCall) : List Message :=
  tcs.map (fun tc => Message.tool (texec tc) tc.id)

/-- Count one more executed node step on a run outcome. -/
def bump (p : α × Nat) : α × Nat :=
  (p.1, p.2 + 1)

/-- One run of the compiled graph from a given node (agent.ts:170-188).
`oracle` abstracts the language model: from the current history it yields
the content and requested tool calls of the next ai message, which is what
the `agent` node appends (agent.ts:140-167); `texec` abstracts a tool's
serialized result.  `fuel` is the number of node steps the recursion limit
still allows; reaching zero with a node still scheduled aborts the run
with `GraphError.recursionLimit`.  The second component counts executed
node steps. -/
def runFrom (oracle : List Message → String × List ToolCall) (texec : ToolCall → String) :
    Nat → Node → List Message → Except GraphError (List Message) × Nat
  | 0, _, _ => (Except.error GraphError.recursionLimit, 0)
  | fuel + 1, Node.agent, msgs =>
    match shouldContinue (msgs ++ [Message.ai (oracle msgs).1 (oracle msgs).2]) with
    | some "tools" =>
      bump (runFrom oracle texec fuel Node.tools
        (msgs ++ [Message.ai (oracle msgs).1 (oracle msgs).2]))
    | _ => (Except.ok (msgs ++ [Message.ai (oracle msgs).1 (oracle msgs).2]), 1)
  | fuel + 1, Node.tools, msgs =>
    bump (runFrom oracle texec fuel Node.agent
      (msgs ++ toolMessages texec (toolCallsOf ((msgs.getLast?).getD (Message.human "")))))

/-- `app.invoke` with `recursionLimit: 15` on an initial state holding the
single human message (agent.ts:180-188): run from the `agent` node with a
budget of 15 node steps. -/
def invokeGraph (oracle : List Message → String × List ToolCall)
    (texec : ToolCall → String) (query : String) :
    Except GraphError (List Message) × Nat :=
  runFrom oracle texec 15 Node.agent [Message.human query]

/-- An inventory item document with the four text fields searched by the
lexical fallback (agent.ts:77-84). -/
structure Item where
  item_name : String
  item_description : String
  categories : String
  embedding_text : String
deriving DecidableEq, Repr

/-- One item of a regular-expression pattern in the fragment modelled
here: a literal character or the `.` wildcard. -/
inductive RItem where
  | lit (c : Char)
  | dot
deriving DecidableEq, Repr

/-- PCRE metacharacters: the characters MongoDB's `$regex` does not match
literally. -/
def isMeta (c : Char) : Bool :=
  ['\\', '^', '$', '.', '|', '?', '*', '+', '(', ')', '[', ']', '\x7b', '\x7d'].contains c

/-- Parse a `$regex` pattern of the modelled fragment: literal characters
and the `.` wildcard.  Patterns containing any other PCRE metacharacter
are outside the fragment and map to `none`; no claim is settled on such
patterns. -/
def parsePattern (p : String) : Option (List RItem) :=
  if p.toList.any (fun c => isMeta c && c != '.') then none
  else some (p.toList.map (fun c => if c = '.' then RItem.dot else RItem.lit c))

/-- Case-insensitive match of one pattern item against one character (the
`i` option of agent.ts:79-82). -/
def itemMatches : RItem → Char → Bool
  | RItem.dot, _ => true
  | RItem.lit l, c => l.toLower == c.toLower

/-- Match the whole pattern against a prefix of the character list. -/
def matchAt : List RItem → List Char → Bool
  | [], _ => true
  | _ :: _, [] => false
  | it :: its, c :: cs => itemMatches it c && matchAt its cs

/-- Unanchored regex match — the pattern matches at some position of the
string — which is the semantics of a `$regex`/`$options: 'i'` condition. -/
def regexTest (its : List RItem) : List Char → Bool
  | [] => matchAt its []
  | c :: cs => matchAt its (c :: cs) || regexTest its cs

/-- Case-insensitive literal prefix match of a needle. -/
def substrAtCI : List Char → List Char → Bool
  | [], _ => true
  | _ :: _, [] => false
  | a :: as, b :: bs => (a.toLower == b.toLower) && substrAtCI as bs

/-- Case-insensitive literal substring containment. -/
def containsCI (needle : List Char) : List Char → Bool
  | [] => substrAtCI needle []
  | c :: cs => substrAtCI needle (c :: cs) || containsCI needle cs

/-- A document matches the `$or` regex filter of agent.ts:77-83: some of
the four text fields matches the pattern. -/
def docRegexMatch (its : List RItem) (d : Item) : Bool :=
  regexTest its d.item_name.toList || regexTest its d.item_description.toList ||
    regexTest its d.categories.toList || regexTest its d.embedding_text.toList

/-- Follows the spec's words, for comparison with `docRegexMatch`:
"case-insensitive substring matching across multiple text fields (name,
description, category, embedding text)" — the query string taken as a
literal substring. -/
def specLexicalMatch (q : String) (d : Item) : Bool :=
  containsCI q.toList d.item_name.toList ||
    containsCI q.toList d.item_description.toList ||
    containsCI q.toList d.categories.toList ||
    containsCI q.toList d.embedding_text.toList

/-- MongoDB `cursor.limit(n)` semantics as used at agent.ts:84: 0 means no
limit, a negative argument behaves like its absolute value. -/
def mongoLimit (n : Int) (l : List Item) : List Item :=
  if n = 0 then l else l.take n.natAbs

/-- Error raised when the query is not a pattern of the modelled regex
fragment (MongoDB rejects invalid patterns at `find` time; valid patterns
using other metacharacters are simply outside the modelled fragment). -/
def unsupportedPatternErr : JsError :=
  { status := none, message := "unsupported regex pattern" }

/-- Observable behaviour of the external collaborators (collection,
embedding service, vector index) during one call of the item lookup tool:
the collection's documents, and the faults, if any, raised by
`countDocuments`, by the similarity search (which otherwise answers with a
list of scored documents; scores are opaque and modelled as integers), and
by `find`. -/
structure ToolEnv where
  docs : List Item
  countFault : Option JsError
  vectorResult : Outcome (List (Item × Int))
  findFault : Option JsError
deriving DecidableEq, Repr

/-- The JSON payload serialized and returned by the item lookup tool: the
empty-inventory error (agent.ts:57), a vector or text result object
(agent.ts:86-99), or the caught-error object (agent.ts:103-107). -/
inductive ToolPayload where
  | emptyErr (error : String) (message : String) (count : Nat)
  | vectorRes (results : List (Item × Int)) (query : String) (count : Nat)
  | textRes (results : List Item) (query : String) (count : Nat)
  | caughtErr (error : String) (details : String) (query : String)
deriving DecidableEq, Repr

/-- Body of `itemLookupTool` (agent.ts:51-109): count the documents and
return the empty-inventory payload on zero; otherwise run the similarity
search; on zero vector hits run the `$or`-of-`$regex` lexical fallback
limited to `n`; a fault raised by any of these steps is caught and turned
into the error payload carrying the fault's message and the query. -/
def itemLookup (env : ToolEnv) (query : String) (n : Int) : ToolPayload :=
  match env.countFault with
  | some e => ToolPayload.caughtErr "Failed to search inventory" e.message query
  | none =>
    if env.docs.length = 0 then
      ToolPayload.emptyErr "No items found in inventory"
        "The inventory database appears to be empty" 0
    else
      match env.vectorResult with
      | Outcome.err e => ToolPayload.caughtErr "Failed to search inventory" e.message query
      | Outcome.ok result =>
        if result.length = 0 then
          match env.findFault with
          | some e => ToolPayload.caughtErr "Failed to search inventory" e.message query
          | none =>
            match parsePattern query with
            | none =>
              ToolPayload.caughtErr "Failed to search inventory"
                unsupportedPatternErr.message query
            | some its =>
              ToolPayload.textRes
                (mongoLimit n (env.docs.filter (fun d => docRegexMatch its d))) query
                (mongoLimit n (env.docs.filter (fun d => docRegexMatch its d))).length
        else ToolPayload.vectorRes result query result.length

/-- A rate-limit error as thrown by the model client. -/
def rateLimitErr : JsError :=
  { status := some 429, message := "rate limited" }

/-- Operation that hits the rate limit on its first attempt and succeeds
on every later one. -/
def failOnceFn : Nat → Outcome Nat :=
  fun a => if a = 1 then Outcome.err rateLimitErr else Outcome.ok 7

/-- Operation that hits the rate limit on every attempt. -/
def alwaysRateLimited : Nat → Outcome Nat :=
  fun _ => Outcome.err rateLimitErr

/-- Operation failing with a non-rate-limit fault on every attempt. -/
def alwaysAuthFailed : Nat → Outcome Nat :=
  fun _ => Outcome.err { status := some 401, message := "unauthorized" }

/-- A sample tool call. -/
def sampleCall : ToolCall :=
  { id := "call-1", name := "item_lookup", args := { query := some "chair", n := none } }

/-- Inventory document whose name is "abc", other fields empty. -/
def abcItem : Item :=
  { item_name := "abc", item_description := "", categories := "", embedding_text := "" }

/-- Inventory document for the witness runs. -/
def sofaItem : Item :=
  { item_name := "Red Sofa", item_description := "A plush red sofa",
    categories := "sofas", embedding_text := "red sofa plush" }

/-- Collaborator behaviour: one given document, healthy collection, vector
search answering with no hits, lexical find healthy. -/
def envTextOnly (d : Item) : ToolEnv :=
  { docs := [d], countFault := none, vectorResult := Outcome.ok [], findFault := none }

/-- Collaborator behaviour whose countDocuments call faults. -/
def envCountFault : ToolEnv :=
  { docs := [sofaItem], countFault := some { status := none, message := "boom" },
    vectorResult := Outcome.ok [], findFault := none }

/-- Collaborator behaviour: healthy, vector search returns one scored
hit. -/
def envVectorHit : ToolEnv :=
  { docs := [sofaItem], countFault := none,
    vectorResult := Outcome.ok [(sofaItem, 9)], findFault := none }

/-- Collaborator behaviour: empty collection. -/
def envEmpty : ToolEnv :=
  { docs := [], countFault := none, vectorResult := Outcome.ok [], findFault := none }

lemma retryGo_rateLimited_then_ok {T : Type} (fn : Nat → Outcome T) (v : T) :
    ∀ (k a fuel : Nat), k < fuel →
    (∀ i, a ≤ i → i < a + k → ∃ e, fn i = Outcome.err e ∧ e.status = some 429) →
    fn (a + k) = Outcome.ok v →
    retryGo fn a fuel =
      { result := Outcome.ok v,
        delays := (List.range k).map (fun i => min (1000 * 2 ^ (a + i)) 30000),
        calls := k + 1 } := by
  intro k
  induction k with
  | zero =>
    intro a fuel hk hfail hok
    obtain ⟨f, rfl⟩ : ∃ f, fuel = f + 1 := ⟨fuel - 1, by omega⟩
    simp only [Nat.add_zero] at hok
    simp [retryGo, hok]
  | succ k ih =>
    intro a fuel hk hfail hok
    obtain ⟨f, rfl⟩ : ∃ f, fuel = f + 1 := ⟨fuel - 1, by omega⟩
    obtain ⟨e, he, hs⟩ := hfail a (le_refl a) (by omega)
    have hrec := ih (a + 1) f (by omega)
      (fun i h1 h2 => hfail i (by omega) (by omega))
      (by rw [show a + 1 + k = a + (k + 1) from by omega]; exact hok)
    have hlist : (List.range (k + 1)).map (fun i => min (1000 * 2 ^ (a + i)) 30000)
        = min (1000 * 2 ^ a) 30000 ::
          (List.range k).map (fun i => min (1000 * 2 ^ (a + 1 + i)) 30000) := by
      rw [List.range_succ_eq_map, List.map_cons, List.map_map]
      refine congrArg₂ _ (by simp) (List.map_congr_left (fun i hi => ?_))
      simp only [Function.comp_apply, Nat.succ_eq_add_one]
      rw [show a + (i + 1) = a + 1 + i from by omega]
    simp only [retryGo, he]
    rw [if_pos ⟨hs, by omega⟩, hrec, hlist]
    rfl

lemma retryGo_allRateLimited {T : Type} (fn : Nat → Outcome T) (e : JsError)
    (hall : ∀ i, fn i = Outcome.err e) (hs : e.status = some 429) :
    ∀ (fuel a : Nat), 1 ≤ fuel →
    (retryGo fn a fuel).result = Outcome.err e ∧ (retryGo fn a fuel).calls = fuel := by
  intro fuel
  induction fuel with
  | zero => intro a h; omega
  | succ f ih =>
    intro a h
    cases Nat.eq_zero_or_pos f with
    | inl h0 =>
      subst h0
      simp [retryGo, hall a, hs]
    | inr hf =>
      have hrec := ih (a + 1) hf
      simp only [retryGo, hall a]
      rw [if_pos ⟨hs, hf⟩]
      simp [consDelay, hrec.1, hrec.2]

/-- C3, counterexample: the operation hits the rate limit exactly once
(k = 1, maxRetries = 3) and then succeeds; `retryWithBackoff` does return
the success value after 2 attempts, but the single sleep lasts 2000 ms
where the claimed delay schedule 1000 ms, 2000 ms, 4000 ms, … predicts
1000 ms — the code computes `min(1000 * 2 ^ attempt, 30000)` with the
failed attempt numbered from 1, so no 1000 ms delay ever occurs. -/
theorem retry_delay_counterexample :
    retryWithBackoff failOnceFn 3 =
      { result := Outcome.ok 7, delays := [2000], calls := 2 } ∧
    (2000 : Nat) ≠ 1000 := by
  constructor <;> decide

/-- C3, amended: for every wrapped operation that fails with a rate-limit
fault (HTTP 429) exactly k times with k < maxRetries and then succeeds,
`retryWithBackoff` returns the success value after k + 1 total attempts,
sleeping between consecutive attempts for delays of 2000 ms, 4000 ms,
8000 ms, … (`min(1000 * 2 ^ a, 30000)` after the a-th failed attempt,
a counted from 1), capped at 30000 ms. -/
theorem retry_success_after_rate_limits {T : Type} (fn : Nat → Outcome T)
    (k : Nat) (maxRetries : Int) (v : T)
    (hk : (k : Int) < maxRetries)
    (hfail : ∀ i, 1 ≤ i → i ≤ k → ∃ e, fn i = Outcome.err e ∧ e.status = some 429)
    (hok : fn (k + 1) = Outcome.ok v) :
    retryWithBackoff fn maxRetries =
      { result := Outcome.ok v,
        delays := (List.range k).map (fun i => min (1000 * 2 ^ (i + 1)) 30000),
        calls := k + 1 } := by
  have hk2 : k < maxRetries.toNat := by omega
  have h := retryGo_rateLimited_then_ok fn v k 1 maxRetries.toNat hk2
    (fun i h1 h2 => hfail i h1 (by omega))
    (by rw [show 1 + k = k + 1 from by omega]; exact hok)
  rw [retryWithBackoff, h]
  have hd : (List.range k).map (fun i => min (1000 * 2 ^ (1 + i)) 30000)
      = (List.range k).map (fun i => min (1000 * 2 ^ (i + 1)) 30000) :=
    List.map_congr_left (fun i hi => by rw [Nat.add_comm 1 i])
  rw [hd]

/-- C3, witness: the amended theorem evaluated at `failOnceFn`, k = 1,
maxRetries = 3. -/
theorem retry_success_after_rate_limits_witness :
    retryWithBackoff failOnceFn 3 =
      { result := Outcome.ok 7, delays := [2000], calls := 2 } := by
  have h := retry_success_after_rate_limits failOnceFn 1 3 7 (by decide)
    (fun i h1 h2 => ⟨rateLimitErr, by
      have hi : i = 1 := le_antisymm h2 h1
      subst hi
      exact ⟨rfl, rfl⟩⟩)
    rfl
  exact h.trans (by decide)

/-- C4, counterexample: with every attempt failing as rate-limited and
maxRetries = 3, `retryWithBackoff` rejects with the last 429 error itself,
not with the distinct "Max retries exceeded" (RetryExhausted) error: on
the final attempt the guard `attempt < maxRetries` is false and the
original error is rethrown, so agent.ts:34 is unreachable for
maxRetries ≥ 1. -/
theorem retry_exhaustion_counterexample :
    retryWithBackoff alwaysRateLimited 3 =
      { result := Outcome.err rateLimitErr, delays := [2000, 4000], calls := 3 } ∧
    Outcome.err (T := Nat) rateLimitErr ≠ Outcome.err maxRetriesExceeded := by
  constructor <;> decide

/-- C4, amended: if all maxRetries ≥ 1 attempts fail with the same
rate-limit fault e, `retryWithBackoff` fails with e itself (which is never
the "Max retries exceeded" error) after exactly maxRetries invocations;
and every failure not classified as rate-limit propagates immediately,
with a single invocation and no sleeps. -/
theorem retry_exhaustion_behavior {T : Type} (fn : Nat → Outcome T)
    (maxRetries : Int) (e : JsError) :
    ((1 ≤ maxRetries) → (∀ i, fn i = Outcome.err e) → e.status = some 429 →
      (retryWithBackoff fn maxRetries).result = Outcome.err e ∧
      (retryWithBackoff fn maxRetries).result ≠ Outcome.err maxRetriesExceeded ∧
      (retryWithBackoff fn maxRetries).calls = maxRetries.toNat) ∧
    ((1 ≤ maxRetries) → fn 1 = Outcome.err e → ¬ e.status = some 429 →
      retryWithBackoff fn maxRetries =
        { result := Outcome.err e, delays := [], calls := 1 }) := by
  constructor
  · intro hm hall hs
    have h := retryGo_allRateLimited fn e hall hs maxRetries.toNat 1 (by omega)
    simp only [retryWithBackoff]
    refine ⟨h.1, ?_, h.2⟩
    rw [h.1]
    intro heq
    have he : e = maxRetriesExceeded := by injection heq
    rw [he] at hs
    simp [maxRetriesExceeded] at hs
  · intro hm h1 hs
    obtain ⟨f, hf⟩ : ∃ f, maxRetries.toNat = f + 1 := ⟨maxRetries.toNat - 1, by omega⟩
    rw [retryWithBackoff, hf]
    simp only [retryGo, h1]
    rw [if_neg (fun hc => hs hc.1)]

/-- C4, witness: the amended theorem evaluated at `alwaysRateLimited`
(all three attempts 429) and at `alwaysAuthFailed` (a 401 fault,
propagated with a single attempt), both with maxRetries = 3. -/
theorem retry_exhaustion_behavior_witness :
    (retryWithBackoff alwaysRateLimited 3).result = Outcome.err rateLimitErr ∧
    retryWithBackoff alwaysAuthFailed 3 =
      { result := Outcome.err { status := some 401, message := "unauthorized" },
        delays := [], calls := 1 } := by
  constructor
  · exact ((retry_exhaustion_behavior alwaysRateLimited 3 rateLimitErr).1
      (by decide) (fun i => rfl) rfl).1
  · exact (retry_exhaustion_behavior alwaysAuthFailed 3
      { status := some 401, message := "unauthorized" }).2 (by decide) rfl (by decide)

/-- C10: calling `retryWithBackoff` with a non-positive maxRetries makes
the `for` loop body never run — the wrapped operation is invoked zero
times — and the call rejects with the "Max retries exceeded" error of
agent.ts:34. -/
theorem retry_nonpositive_maxRetries {T : Type} (fn : Nat → Outcome T)
    (maxRetries : Int) (h : maxRetries ≤ 0) :
    retryWithBackoff fn maxRetries =
      { result := Outcome.err maxRetriesExceeded, delays := [], calls := 0 } := by
  have h0 : maxRetries.toNat = 0 := by omega
  rw [retryWithBackoff, h0]
  rfl

/-- C10, witness: the theorem evaluated at maxRetries = 0 on an operation
that would succeed if it were ever invoked. -/
theorem retry_nonpositive_maxRetries_witness :
    retryWithBackoff (fun _ => Outcome.ok (0 : Nat)) 0 =
      { result := Outcome.err maxRetriesExceeded, delays := [], calls := 0 } :=
  retry_nonpositive_maxRetries (fun _ => Outcome.ok (0 : Nat)) 0 (by decide)

lemma shouldContinue_concat (ms : List Message) (m : Message) :
    shouldContinue (ms ++ [m]) =
      some (if (toolCallsOf m).length ≠ 0 then "tools" else "__end__") := by
  simp only [shouldContinue, List.getLast?_concat]
  split <;> simp_all

/-- C1: evaluated on a state whose last message is m — as is the case
after every agent step, which appends the model's reply — `shouldContinue`
returns "tools" exactly when m is ai-role and carries a non-empty
tool-call list, and returns "__end__" otherwise; and the workflow's
unconditional edge out of `tools` leads back to `agent`. -/
theorem shouldContinue_characterization (ms : List Message) (m : Message) :
    (shouldContinue (ms ++ [m]) = some "tools" ↔ isAi m = true ∧ toolCallsOf m ≠ []) ∧
    (¬(isAi m = true ∧ toolCallsOf m ≠ []) → shouldContinue (ms ++ [m]) = some "__end__") ∧
    nextFixedEdge "tools" = some "agent" := by
  have hc := shouldContinue_concat ms m
  refine ⟨⟨fun h => ?_, fun h => ?_⟩, fun h => ?_, by decide⟩
  · rw [hc, Option.some_inj] at h
    split_ifs at h with hne
    · cases m with
      | ai c tcs =>
        exact ⟨rfl, by simpa [toolCallsOf, List.length_eq_zero] using hne⟩
      | human c => simp [toolCallsOf] at hne
      | tool c i => simp [toolCallsOf] at hne
    · exact absurd h (by decide)
  · obtain ⟨hai, hne⟩ := h
    rw [hc, if_pos (by simpa [List.length_eq_zero] using hne)]
  · rw [hc, if_neg ?_]
    cases m with
    | ai c tcs =>
      have : tcs = [] := by
        by_contra hne
        exact h ⟨rfl, by simpa [toolCallsOf] using hne⟩
      simp [toolCallsOf, this]
    | human c => simp [toolCallsOf]
    | tool c i => simp [toolCallsOf]

/-- C1, witness: the characterization evaluated on a history ending in an
ai message with one tool call, and on one ending in a human message. -/
theorem shouldContinue_characterization_witness :
    shouldContinue [Message.ai "looking" [sampleCall]] = some "tools" ∧
    shouldContinue [Message.human "hello"] = some "__end__" ∧
    nextFixedEdge "tools" = some "agent" := by
  refine ⟨?_, ?_, ?_⟩
  · exact (shouldContinue_characterization [] (Message.ai "looking" [sampleCall])).1.mpr
      ⟨rfl, by decide⟩
  · exact (shouldContinue_characterization [] (Message.human "hello")).2.1
      (by simp [isAi])
  · exact (shouldContinue_characterization [] (Message.human "hello")).2.2

lemma runFrom_ok_or_limit (oracle : List Message → String × List ToolCall)
    (texec : ToolCall → String) :
    ∀ (fuel : Nat) (node : Node) (msgs : List Message),
    ((∃ out, (runFrom oracle texec fuel node msgs).1 = Except.ok out) ∨
      (runFrom oracle texec fuel node msgs).1 = Except.error GraphError.recursionLimit) ∧
    (runFrom oracle texec fuel node msgs).2 ≤ fuel := by
  intro fuel
  induction fuel with
  | zero =>
    intro node msgs
    exact ⟨Or.inr rfl, le_refl 0⟩
  | succ f ih =>
    intro node msgs
    cases node with
    | agent =>
      constructor
      · simp only [runFrom]
        split
        · have h := (ih Node.tools (msgs ++ [Message.ai (oracle msgs).1 (oracle msgs).2])).1
          simpa [bump] using h
        · exact Or.inl ⟨_, rfl⟩
      · simp only [runFrom]
        split
        · have h := (ih Node.tools (msgs ++ [Message.ai (oracle msgs).1 (oracle msgs).2])).2
          simp only [bump]
          omega
        · simp
    | tools =>
      constructor
      · have h := (ih Node.agent
          (msgs ++ toolMessages texec (toolCallsOf ((msgs.getLast?).getD (Message.human ""))))).1
        simpa [runFrom, bump] using h
      · have h := (ih Node.agent
          (msgs ++ toolMessages texec (toolCallsOf ((msgs.getLast?).getD (Message.human ""))))).2
        simp only [runFrom, bump]
        omega

/-- C2: for every model behaviour, every tool behaviour and every user
query, one invocation of the compiled graph either terminates successfully
within 15 node steps, or aborts with the fatal RecursionLimitExceeded
error. -/
theorem invokeGraph_within_limit (oracle : List Message → String × List ToolCall)
    (texec : ToolCall → String) (query : String) :
    ((∃ out, (invokeGraph oracle texec query).1 = Except.ok out) ∧
      (invokeGraph oracle texec query).2 ≤ 15) ∨
    (invokeGraph oracle texec query).1 = Except.error GraphError.recursionLimit := by
  have h := runFrom_ok_or_limit oracle texec 15 Node.agent [Message.human query]
  rcases h.1 with hok | hlim
  · exact Or.inl ⟨hok, h.2⟩
  · exact Or.inr hlim

/-- C9, counterexample: the zod schema accepts the supplied value n = 0,
which is not strictly greater than 0 — `z.number().optional().default(10)`
(agent.ts:115) has no positivity constraint. -/
theorem schema_accepts_nonpositive_n :
    schemaParse { query := some "chair", n := some 0 } =
      Outcome.ok { query := "chair", n := 0 } ∧
    ¬((0 : Int) > 0) := by
  constructor <;> decide

/-- C9, amended: the SearchQuery argument n defaults to 10 when omitted,
and the schema accepts every supplied number n unchanged — including 0 and
negative values; no constraint n > 0 is enforced. -/
theorem schema_default_and_passthrough (q : String) :
    schemaParse { query := some q, n := none } = Outcome.ok { query := q, n := 10 } ∧
    ∀ m : Int, schemaParse { query := some q, n := some m } =
      Outcome.ok { query := q, n := m } :=
  ⟨rfl, fun m => rfl⟩

/-- C5: the item lookup tool always returns a structured payload and never
raises: a fault from countDocuments, from the similarity search or from
the lexical-fallback find is caught and converted into the error payload
carrying the fault's message and the query; and in every case the result
is one of the four structured payload shapes, with error payloads echoing
the query. -/
theorem itemLookup_never_raises (env : ToolEnv) (q : String) (n : Int) :
    (∀ e, env.countFault = some e →
      itemLookup env q n = ToolPayload.caughtErr "Failed to search inventory" e.message q) ∧
    (∀ e, env.countFault = none → env.docs ≠ [] → env.vectorResult = Outcome.err e →
      itemLookup env q n = ToolPayload.caughtErr "Failed to search inventory" e.message q) ∧
    (∀ e, env.countFault = none → env.docs ≠ [] → env.vectorResult = Outcome.ok [] →
      env.findFault = some e →
      itemLookup env q n = ToolPayload.caughtErr "Failed to search inventory" e.message q) ∧
    ((∃ er ms c, itemLookup env q n = ToolPayload.emptyErr er ms c) ∨
      (∃ rs c, itemLookup env q n = ToolPayload.vectorRes rs q c) ∨
      (∃ rs c, itemLookup env q n = ToolPayload.textRes rs q c) ∨
      (∃ er d, itemLookup env q n = ToolPayload.caughtErr er d q)) := by
  refine ⟨?_, ?_, ?_, ?_⟩
  · intro e he
    simp [itemLookup, he]
  · intro e hc hd hv
    simp [itemLookup, hc, hv, List.length_eq_zero, hd]
  · intro e hc hd hv hf
    simp [itemLookup, hc, hv, List.length_eq_zero, hd, hf]
  · rcases hc : env.countFault with _ | e
    · by_cases hd : env.docs.length = 0
      · refine Or.inl ⟨"No items found in inventory",
          "The inventory database appears to be empty", 0, ?_⟩
        simp [itemLookup, hc, hd]
      · rcases hv : env.vectorResult with rs | e2
        · by_cases hr : rs.length = 0
          · rcases hf : env.findFault with _ | e3
            · rcases hp : parsePattern q with _ | its
              · refine Or.inr (Or.inr (Or.inr ⟨"Failed to search inventory",
                  unsupportedPatternErr.message, ?_⟩))
                simp [itemLookup, hc, hd, hv, hr, hf, hp]
              · refine Or.inr (Or.inr (Or.inl
                  ⟨mongoLimit n (env.docs.filter (fun d => docRegexMatch its d)),
                    (mongoLimit n (env.docs.filter (fun d => docRegexMatch its d))).length, ?_⟩))
                simp [itemLookup, hc, hd, hv, hr, hf, hp]
            · refine Or.inr (Or.inr (Or.inr
                ⟨"Failed to search inventory", e3.message, ?_⟩))
              simp [itemLookup, hc, hd, hv, hr, hf]
          · refine Or.inr (Or.inl ⟨rs, rs.length, ?_⟩)
            simp [itemLookup, hc, hd, hv, hr]
        · refine Or.inr (Or.inr (Or.inr ⟨"Failed to search inventory", e2.message, ?_⟩))
          simp [itemLookup, hc, hd, hv]
    · refine Or.inr (Or.inr (Or.inr ⟨"Failed to search inventory", e.message, ?_⟩))
      simp [itemLookup, hc]

/-- C5, witness: the fault-absorption part evaluated on a collaborator
whose countDocuments call raises. -/
theorem itemLookup_never_raises_witness :
    itemLookup envCountFault "sofa" 10 =
      ToolPayload.caughtErr "Failed to search inventory" "boom" "sofa" :=
  (itemLookup_never_raises envCountFault "sofa" 10).1
    { status := none, message := "boom" } rfl

/-- C6: on a healthy non-empty collection, vector search returning the
hits rs ≠ [] yields the vector payload with those hits and count equal to
their number; zero vector hits yield the text payload holding the
lexical-fallback results with count equal to their number; and an empty
collection yields the empty-inventory error payload with count 0
immediately. -/
theorem itemLookup_branches (env : ToolEnv) (q : String) (n : Int) :
    (∀ rs, env.countFault = none → env.docs ≠ [] → env.vectorResult = Outcome.ok rs →
      rs ≠ [] → itemLookup env q n = ToolPayload.vectorRes rs q rs.length) ∧
    (∀ its, env.countFault = none → env.docs ≠ [] → env.vectorResult = Outcome.ok [] →
      env.findFault = none → parsePattern q = some its →
      itemLookup env q n =
        ToolPayload.textRes (mongoLimit n (env.docs.filter (fun d => docRegexMatch its d))) q
          (mongoLimit n (env.docs.filter (fun d => docRegexMatch its d))).length) ∧
    (env.countFault = none → env.docs = [] →
      itemLookup env q n = ToolPayload.emptyErr "No items found in inventory"
        "The inventory database appears to be empty" 0) := by
  refine ⟨?_, ?_, ?_⟩
  · intro rs hc hd hv hr
    simp [itemLookup, hc, hv, List.length_eq_zero, hd, hr]
  · intro its hc hd hv hf hp
    simp [itemLookup, hc, hv, List.length_eq_zero, hd, hf, hp]
  · intro hc hd
    simp [itemLookup, hc, hd]

/-- C6, witness: the three branches evaluated on concrete collaborator
behaviours — one scored vector hit, a lexical-only match, and an empty
collection. -/
theorem itemLookup_branches_witness :
    itemLookup envVectorHit "sofa" 10 = ToolPayload.vectorRes [(sofaItem, 9)] "sofa" 1 ∧
    itemLookup (envTextOnly sofaItem) "sofa" 10 = ToolPayload.textRes [sofaItem] "sofa" 1 ∧
    itemLookup envEmpty "sofa" 10 = ToolPayload.emptyErr "No items found in inventory"
      "The inventory database appears to be empty" 0 := by
  refine ⟨?_, ?_, ?_⟩
  · exact (itemLookup_branches envVectorHit "sofa" 10).1 [(sofaItem, 9)]
      rfl (by decide) rfl (by decide)
  · have h := (itemLookup_branches (envTextOnly sofaItem) "sofa" 10).2.1
      [RItem.lit 's', RItem.lit 'o', RItem.lit 'f', RItem.lit 'a']
      rfl (by decide) rfl rfl (by decide)
    exact h.trans (by decide)
  · exact (itemLookup_branches envEmpty "sofa" 10).2.2 rfl rfl

/-- C7, counterexample: with query "a.c" the lexical fallback returns the
document named "abc" — under `$regex` the `.` of the query acts as a
wildcard — although "a.c" occurs in none of the document's four fields as
a literal substring, so the fallback does not treat every query as a
literal substring. -/
theorem lexical_fallback_counterexample :
    itemLookup (envTextOnly abcItem) "a.c" 10 = ToolPayload.textRes [abcItem] "a.c" 1 ∧
    specLexicalMatch "a.c" abcItem = false := by
  constructor <;> decide

lemma matchAt_lit : ∀ (q cs : List Char),
    matchAt (q.map RItem.lit) cs = substrAtCI q cs := by
  intro q
  induction q with
  | nil => intro cs; rfl
  | cons a as ih =>
    intro cs
    cases cs with
    | nil => rfl
    | cons b bs => simp [matchAt, substrAtCI, itemMatches, ih bs]

lemma regexTest_lit (q : List Char) : ∀ (cs : List Char),
    regexTest (q.map RItem.lit) cs = containsCI q cs := by
  intro cs
  induction cs with
  | nil => simp [regexTest, containsCI, matchAt_lit]
  | cons c cs ih => simp [regexTest, containsCI, matchAt_lit, ih]

lemma parsePattern_noMeta (q : String) (h : ∀ c ∈ q.toList, isMeta c = false) :
    parsePattern q = some (q.toList.map RItem.lit) := by
  rw [parsePattern, if_neg ?_]
  · congr 1
    refine List.map_congr_left (fun c hc => ?_)
    have hm := h c hc
    have hdot : ¬(c = '.') := by
      intro he
      rw [he] at hm
      simp [isMeta] at hm
    rw [if_neg hdot]
  · intro hany
    rw [List.any_eq_true] at hany
    obtain ⟨c, hc, hb⟩ := hany
    rw [h c hc] at hb
    simp at hb

lemma docRegexMatch_lit (q : String) (d : Item) :
    docRegexMatch (q.toList.map RItem.lit) d = specLexicalMatch q d := by
  simp [docRegexMatch, specLexicalMatch, regexTest_lit]

/-- C7, amended: the lexical fallback matches the query against the name,
description, category and embedding-text fields as a case-insensitive
regular-expression pattern, limited to n results; only for query strings
free of regex metacharacters does this coincide with case-insensitive
literal-substring matching (the claim's "every query treated as a literal
substring" fails in general — see the counterexample). -/
theorem lexical_fallback_literal_queries (env : ToolEnv) (q : String) (n : Int)
    (hq : ∀ c ∈ q.toList, isMeta c = false)
    (hc : env.countFault = none) (hd : env.docs ≠ [])
    (hv : env.vectorResult = Outcome.ok []) (hf : env.findFault = none) :
    itemLookup env q n =
      ToolPayload.textRes (mongoLimit n (env.docs.filter (fun d => specLexicalMatch q d))) q
        (mongoLimit n (env.docs.filter (fun d => specLexicalMatch q d))).length := by
  have hp := parsePattern_noMeta q hq
  have hfilter : env.docs.filter (fun d => docRegexMatch (q.toList.map RItem.lit) d)
      = env.docs.filter (fun d => specLexicalMatch q d) :=
    List.filter_congr (fun d hd2 => by rw [docRegexMatch_lit])
  simp only [String.toList] at hfilter
  simp [itemLookup, hc, hv, hf, hp, List.length_eq_zero, hd, hfilter]

/-- C7, witness: the amended theorem evaluated on the metacharacter-free
query "sofa" over a one-document collection on which vector search answers
with no hits. -/
theorem lexical_fallback_literal_queries_witness :
    itemLookup (envTextOnly sofaItem) "sofa" 5 =
      ToolPayload.textRes [sofaItem] "sofa" 1 := by
  have h := lexical_fallback_literal_queries (envTextOnly sofaItem) "sofa" 5
    (by decide) rfl (by decide) rfl rfl
  exact h.trans (by decide)
